import Mathlib

/-!
Verification of the content-gap analysis core of the Appscript-Basic-Pulls
repository against its natural-language specification.

The development shallowly embeds the JavaScript sources:

* `src/pipeline/contentGapAnalysis.js` (concatenated into
  `src/src/pipeline/cleanHtml.js`): `extractQuestions`, `clusterQuestions`,
  `detectGaps`, `generateOutline`, `computePriority`, `GapAnalysisStore`,
  `runContentGapAnalysis`, and the local `cosineSimilarity` / `slugify`
  helpers.
* `src/store/ContentGapStore.js`: `_load` (corrupt-file quarantine) and
  `_persist` (temp-file + rename).
* `src/utils/math.js`: `cosineSimilarity`.
* `src/gap/ContentGapAnalyzer.js` (`src/unnamed/part_010`): the question
  frequency loop, LLM fallback logic and `computePriority`.
* `src/store/FileVectorStore.js` (`src/unnamed/part_024`): `query`.

Numbers are modelled as exact rationals (`ℚ`) where the code is evaluated on
concrete inputs, and as reals (`ℝ`) for the analytic cosine-similarity facts;
JavaScript float arithmetic is idealised as exact arithmetic throughout.
External effects (file system, JSON parser, HTTP collaborators) are modelled
as explicit data: file contents, parse outcomes and oracle functions.
-/

namespace ContentGap

/-! ### String helpers shared by the embedded functions

Core `String` functions such as `trim` and `toLower` are re-implemented over
character lists so that every embedded function evaluates by kernel
reduction on concrete inputs. -/

/-- ASCII lower-casing of one character (JavaScript `toLowerCase` on the
ASCII range, the only range the embedded regexes distinguish). -/
def lowerChar (c : Char) : Char :=
  if 'A' ≤ c && c ≤ 'Z' then Char.ofNat (c.toNat + 32) else c

/-- Lower-cased string. -/
def lowerStr (s : String) : String :=
  String.mk (s.data.map lowerChar)

/-- Leading and trailing whitespace removal on a character list. -/
def trimChars (cs : List Char) : List Char :=
  ((cs.dropWhile Char.isWhitespace).reverse.dropWhile Char.isWhitespace).reverse

/-- JavaScript `String.prototype.trim()`. -/
def jsTrim (s : String) : String :=
  String.mk (trimChars s.data)

/-- Truth value of `/\?$/.test(s)` (equivalently `s.endsWith('?')`). -/
def endsWithQmark (s : String) : Bool :=
  s.data.getLast? == some '?'

/-- JavaScript `s.slice(0, n)` for non-negative `n`. -/
def strTake (s : String) (n : Nat) : String :=
  String.mk (s.data.take n)

/-- Word characters of the JavaScript regex class `\w`, i.e. `[A-Za-z0-9_]`. -/
def isWordChar (c : Char) : Bool :=
  c.isAlphanum || c = '_'

/-- Splits a character list into its maximal runs of word characters.
`acc` holds the current run in reverse.  A regex `\b(w1|w2|...)\b` over `\w`
word characters matches a string iff one of the alternatives equals one of
these maximal runs. -/
def wordRunsAux : List Char → List Char → List (List Char)
  | [], acc => if acc.isEmpty then [] else [acc.reverse]
  | c :: rest, acc =>
    if isWordChar c then wordRunsAux rest (c :: acc)
    else if acc.isEmpty then wordRunsAux rest []
    else acc.reverse :: wordRunsAux rest []

/-- Maximal word-character runs of a string, as strings. -/
def wordRuns (s : String) : List String :=
  (wordRunsAux s.data []).map fun cs => String.mk cs

/-- Interrogative-word set of `extractQuestions`
(`/\b(what|how|why|when|where|is|are|do|does|can)\b/i`). -/
def interrogativeWords : List String :=
  ["what", "how", "why", "when", "where", "is", "are", "do", "does", "can"]

/-- Truth value of `/\b(what|how|why|when|where|is|are|do|does|can)\b/i.test(s)`:
the string contains one of the interrogative words as a whole word, anywhere,
case-insensitively. -/
def hasInterrogativeWord (s : String) : Bool :=
  (wordRuns (lowerStr s)).any fun w => interrogativeWords.contains w

/-! ### Question extraction, `extractQuestions` of contentGapAnalysis.js -/

/-- Message shape expected by `extractQuestions`: author and text may be
absent or of the wrong runtime type, which the code skips; `none` models
both. -/
structure ChatMsg where
  author : Option String
  text : Option String
  timestamp : Option String
deriving DecidableEq

/-- Conversation value as it may appear in the `conversations` array.
`strings` models a flat JavaScript array of message strings (such a value has
no `.messages` property, so `extractQuestions` skips it); `obj` models
`{ id, timestamp, messages }`; `nullish` models a falsy entry. -/
inductive Conv where
  | strings (msgs : List String)
  | obj (id : Option String) (timestamp : Option String) (messages : List ChatMsg)
  | nullish
deriving DecidableEq

/-- Question record produced by `extractQuestions`:
`{ text: trimmed, convId: String(conv.id ?? ''), timestamp: msg.timestamp ?? conv.timestamp ?? null }`. -/
structure ExtractedQ where
  text : String
  convId : String
  timestamp : Option String
deriving DecidableEq

/-- Truth value of the question heuristic of `extractQuestions` applied to the
trimmed message text: `/\?$/.test(trimmed) || /\b(what|...|can)\b/i.test(trimmed)`. -/
def isQuestionHeuristic (trimmed : String) : Bool :=
  endsWithQmark trimmed || hasInterrogativeWord trimmed

/-- Body of the inner message loop of `extractQuestions`: skip non-`'user'`
authors, skip non-string texts, then apply the question heuristic to the
trimmed text. -/
def msgQuestion (convId : String) (convTs : Option String) (m : ChatMsg) : Option ExtractedQ :=
  if m.author ≠ some "user" then none
  else
    match m.text with
    | none => none
    | some t =>
      let trimmed := jsTrim t
      if isQuestionHeuristic trimmed then
        some { text := trimmed, convId := convId, timestamp := m.timestamp.orElse fun _ => convTs }
      else none

/-- Conditional push of the inner message loop: `questions.push(...)` when
the message classified as a question. -/
def extractPush (acc : List ExtractedQ) (o : Option ExtractedQ) : List ExtractedQ :=
  match o with
  | some q => acc ++ [q]
  | none => acc

/-- `extractQuestions(conversations)` of contentGapAnalysis.js, as the nested
push loop over conversations and messages.  Conversations without a
`messages` array (flat string arrays, falsy entries) are skipped. -/
def extractQuestions (convs : List Conv) : List ExtractedQ :=
  convs.foldl
    (fun acc conv =>
      match conv with
      | Conv.obj id ts msgs =>
        msgs.foldl (fun acc2 m => extractPush acc2 (msgQuestion (id.getD "") ts m)) acc
      | _ => acc)
    []

/-- Questions contributed by a single conversation, declaratively. -/
def convQuestions (conv : Conv) : List ExtractedQ :=
  match conv with
  | Conv.obj id ts msgs => msgs.filterMap (msgQuestion (id.getD "") ts)
  | _ => []

/-! ### Question counting of `ContentGapAnalyzer.analyse` (part_010) -/

/-- Conversation value accepted by `ContentGapAnalyzer.analyse`: either a flat
array of message strings or `{ id, messages: string[] }`; anything without a
messages array contributes no messages. -/
inductive LogConv where
  | flat (msgs : List String)
  | obj (id : Option String) (messages : List String)
  | other
deriving DecidableEq

/-- Entry of the analyser's `freq` map, keyed by the normalised text; the JS
`Map` preserves insertion order, modelled by list order. -/
structure FreqEntry where
  norm : String
  original : String
  count : Nat
deriving DecidableEq

/-- Character filter of `normalise`: after lower-casing, characters outside
`[a-z0-9\s]` are removed. -/
def keepNormChar (c : Char) : Bool :=
  ('a' ≤ c && c ≤ 'z') || c.isDigit || c.isWhitespace

/-- Collapses runs of whitespace to a single space; the flag records whether
the previous kept character was part of a whitespace run. -/
def collapseWs : Bool → List Char → List Char
  | _, [] => []
  | prevWs, c :: rest =>
    if c.isWhitespace then
      if prevWs then collapseWs true rest else ' ' :: collapseWs true rest
    else c :: collapseWs false rest

/-- `normalise(text)` of ContentGapAnalyzer.js: lower-case, strip characters
outside `[a-z0-9\s]`, collapse whitespace runs and trim. -/
def normalise (s : String) : String :=
  String.mk (trimChars (collapseWs true ((s.data.map lowerChar).filter keepNormChar)))

/-- One `freq.set` step of the analyser: existing normalised key gets its
count bumped keeping the first-seen `original`, otherwise a fresh entry with
count 1 is appended. -/
def bumpFreq (entries : List FreqEntry) (norm original : String) : List FreqEntry :=
  if entries.any fun e => e.norm = norm then
    entries.map fun e => if e.norm = norm then { e with count := e.count + 1 } else e
  else entries ++ [{ norm := norm, original := original, count := 1 }]

/-- Message list of a `LogConv` as seen by `analyse`:
`Array.isArray(convo) ? convo : Array.isArray(convo.messages) ? convo.messages : []`. -/
def logConvMessages : LogConv → List String
  | LogConv.flat msgs => msgs
  | LogConv.obj _ msgs => msgs
  | LogConv.other => []

/-- Question-frequency loop of `ContentGapAnalyzer.analyse` (part_010): a
string message counts iff its trimmed text ends with `?`; entries are keyed
by `normalise(msg)` and store `msg.trim()` as the first-seen original. -/
def analyzerFreq (logs : List LogConv) : List FreqEntry :=
  logs.foldl
    (fun acc conv =>
      (logConvMessages conv).foldl
        (fun acc2 msg =>
          if endsWithQmark (jsTrim msg) then bumpFreq acc2 (normalise msg) (jsTrim msg)
          else acc2)
        acc)
    []

/-- Question classifier as the specification words it: the trimmed message
ends in `?` or *opens with* one of the interrogative words.  This definition
follows the spec, not the source, and is compared against the source-derived
classifiers. -/
def specIsQuestion (msg : String) : Bool :=
  let trimmed := jsTrim msg
  endsWithQmark trimmed ||
    (match wordRuns (lowerStr trimmed) with
     | [] => false
     | w :: _ => interrogativeWords.contains w)

/-! ### Theme store, `GapAnalysisStore` of contentGapAnalysis.js -/

/-- Persisted theme record `{ occurrences, lastSeen, topic }`. -/
structure ThemeRec where
  occurrences : Nat
  lastSeen : Option String
  topic : Option String
deriving DecidableEq

/-- In-memory theme table (`store.themes`), a JavaScript object modelled as an
insertion-ordered association list with unique keys. -/
abbrev ThemeMap := List (String × ThemeRec)

/-- `store.themes[themeId]` lookup. -/
def getThemeRec (m : ThemeMap) (id : String) : Option ThemeRec :=
  (m.find? fun p => p.1 == id).map fun p => p.2

/-- `store.themes[themeId] = rec`: updates in place when the key exists,
otherwise appends (JavaScript object property order). -/
def setThemeRec (m : ThemeMap) (id : String) (r : ThemeRec) : ThemeMap :=
  if m.any fun p => p.1 == id then
    m.map fun p => if p.1 == id then (id, r) else p
  else m ++ [(id, r)]

/-- `GapAnalysisStore.recordTheme(themeId, meta)` on a loaded theme table:
fetch the record (defaulting to `{ occurrences: 0 }`), increment
`occurrences` by one, stamp `lastSeen` with the current time and overwrite
`topic` with `meta.topic`.  Returns the updated record and table; persistence
is caller-controlled via `save()`. -/
def recordTheme (m : ThemeMap) (id : String) (metaTopic : Option String) (now : String) :
    ThemeRec × ThemeMap :=
  let rec0 := (getThemeRec m id).getD { occurrences := 0, lastSeen := none, topic := none }
  let rec1 : ThemeRec := { occurrences := rec0.occurrences + 1, lastSeen := some now, topic := metaTopic }
  (rec1, setThemeRec m id rec1)

/-! ### Priority scorer, `computePriority` of contentGapAnalysis.js -/

/-- JavaScript `Math.round`: half-way cases round toward positive infinity,
i.e. `Math.round(x) = ⌊x + 0.5⌋`. -/
def roundJS (q : ℚ) : ℤ :=
  Int.floor (q + 1 / 2)

/-- `computePriority({frequency, recurring, maxFrequency}, weights)`:
errors when `maxFrequency` is non-positive, otherwise returns
`Math.min(100, Math.round((frequency / maxFrequency) * 100 * wF + recurring * wR))`. -/
def computePriority (frequency recurring maxFrequency : ℚ) (wFrequency wRecurring : ℚ) :
    Except String ℤ :=
  if maxFrequency ≤ 0 then
    Except.error "computePriority: maxFrequency must be a positive number"
  else
    let freqNorm := frequency / maxFrequency * 100
    let raw := freqNorm * wFrequency + recurring * wRecurring
    Except.ok (min 100 (roundJS raw))

/-! ### Store loading, `GapAnalysisStore._load` vs `ContentGapStore._load`

The file read and `JSON.parse` are external; their joint outcome is modelled
as a `FileContent` value: the file is missing (`ENOENT`), holds unparseable
text (`JSON.parse` throws a `SyntaxError`), or holds a parseable store.
JSON serialisation of a store is modelled as the identity on the table
(`JSON.stringify`/`JSON.parse` round-trip). -/

/-- Outcome of reading and parsing a store's backing file. -/
inductive FileContent (α : Type) where
  | missing
  | corrupt (raw : String)
  | valid (store : α)
deriving DecidableEq

/-- Error escaping a load: the re-thrown `SyntaxError` of `JSON.parse`. -/
inductive LoadError where
  | parseFailure
deriving DecidableEq

/-- `GapAnalysisStore._load` (contentGapAnalysis.js): `ENOENT` initialises
`{ themes: {} }`; any other error — including the `SyntaxError` of
`JSON.parse` on a corrupt file — is re-thrown. -/
def gapAnalysisLoad : FileContent ThemeMap → Except LoadError ThemeMap
  | FileContent.missing => Except.ok []
  | FileContent.corrupt _ => Except.error LoadError.parseFailure
  | FileContent.valid m => Except.ok m

/-- `GapAnalysisStore.getTheme(themeId)` as seen from a fresh store instance:
load the backing file, then look the theme up. -/
def gapAnalysisGetTheme (file : FileContent ThemeMap) (id : String) :
    Except LoadError (Option ThemeRec) :=
  (gapAnalysisLoad file).map fun m => getThemeRec m id

/-- `GapAnalysisStore.recordTheme(themeId, meta)` as seen from a fresh store
instance: load the backing file, then record the theme in memory. -/
def gapAnalysisRecordTheme (file : FileContent ThemeMap) (id : String)
    (metaTopic : Option String) (now : String) : Except LoadError (ThemeRec × ThemeMap) :=
  (gapAnalysisLoad file).map fun m => recordTheme m id metaTopic now

/-- One `analyse`-style run against the theme file: fresh instance, one
`recordTheme`, one `save()`.  `save` persists the cache, so the new file
content is the updated table. -/
def themeRunOnce (file : FileContent ThemeMap) (id : String) (metaTopic : Option String)
    (now : String) : Except LoadError (FileContent ThemeMap) :=
  (gapAnalysisRecordTheme file id metaTopic now).map fun r => FileContent.valid r.2

/-- Opaque content of a `ContentGapStore` record (only identity matters for
the load claims). -/
abbrev GapRec := String

/-- In-memory table of `ContentGapStore`. -/
abbrev GapMap := List (String × GapRec)

/-- `ContentGapStore._load`: `ENOENT` initialises `{}`; a `SyntaxError`
renames the corrupt file to `<file>.corrupt_<Date.now()>` and initialises
`{}`; the second component reports the quarantine rename target, if any. -/
def contentGapLoad (filename nowMs : String) :
    FileContent GapMap → GapMap × Option String
  | FileContent.missing => ([], none)
  | FileContent.corrupt _ => ([], some (filename ++ ".corrupt_" ++ nowMs))
  | FileContent.valid m => (m, none)

/-- `ContentGapStore.get(gapId)` from a fresh instance: load (with possible
quarantine), then return the record copy or `null`.  The load never throws on
a corrupt file. -/
def contentGapGet (filename nowMs : String) (file : FileContent GapMap) (gapId : String) :
    Option GapRec × Option String :=
  let (m, renamed) := contentGapLoad filename nowMs file
  ((m.find? fun p => p.1 == gapId).map (fun p => p.2), renamed)

/-! ### Persistence traces, `_persist` of both stores

File-system side effects are modelled as explicit operation lists, and crash
behaviour by executing a prefix of the list, optionally ending in a torn
`writeFile` whose stored content is arbitrary junk. -/

/-- File-system operations issued by the persistence code. -/
inductive FsOp where
  | mkdir (dir : String)
  | writeFile (path : String) (content : String)
  | rename (src dst : String)
deriving DecidableEq

/-- File-system state: path to content. -/
def Fs : Type := String → Option String

/-- Effect of one completed operation. `mkdir` does not touch file contents;
`rename` moves the source content over the destination. -/
def applyFsOp (fs : Fs) : FsOp → Fs
  | FsOp.mkdir _ => fs
  | FsOp.writeFile p c => fun q => if q = p then some c else fs q
  | FsOp.rename src dst => fun q =>
      if q = dst then fs src else if q = src then none else fs q

/-- Effect of a completed operation sequence. -/
def runFsOps (ops : List FsOp) (fs : Fs) : Fs :=
  ops.foldl applyFsOp fs

/-- States reachable when the process may crash while the sequence runs: any
prefix completes, optionally followed by a torn `writeFile` that left
arbitrary `junk` at its path. -/
def CrashReachable (ops : List FsOp) (fs0 fs : Fs) : Prop :=
  (∃ k, k ≤ ops.length ∧ fs = runFsOps (ops.take k) fs0) ∨
  (∃ k p c junk, ops.get? k = some (FsOp.writeFile p c) ∧
    fs = applyFsOp (runFsOps (ops.take k) fs0) (FsOp.writeFile p junk))

/-- Operations of `GapAnalysisStore._persist()`: `mkdir` the parent directory,
then `writeFile` the JSON payload directly to the target path. -/
def gapAnalysisPersistOps (filename dirName json : String) : List FsOp :=
  [FsOp.mkdir dirName, FsOp.writeFile filename json]

/-- Temp-file path used by `ContentGapStore._persist()`:
`` `${this.filename}.${process.pid}.${Date.now()}.tmp` ``. -/
def contentGapTempPath (filename pid nowMs : String) : String :=
  filename ++ "." ++ pid ++ "." ++ nowMs ++ ".tmp"

/-- Operations of `ContentGapStore._persist()`'s `performWrite`: `mkdir` the
parent directory, `writeFile` the JSON payload to the temp path, then
`rename` the temp file over the target path. -/
def contentGapPersistOps (filename dirName pid nowMs json : String) : List FsOp :=
  [FsOp.mkdir dirName,
   FsOp.writeFile (contentGapTempPath filename pid nowMs) json,
   FsOp.rename (contentGapTempPath filename pid nowMs) filename]

/-! ### Clustering engine, `clusterQuestions` of contentGapAnalysis.js

Embedding vectors are modelled as lists of exact rationals.  The only use the
clustering loop makes of `cosineSimilarity` is the comparison
`cosineSimilarity(vec, cluster.centroid) >= similarityThreshold`;
`cosineGeQ` renders that comparison in exact arithmetic, avoiding the square
root: with `m = magA * magB` and `denom = √m`, `dot / denom ≥ t` holds iff
the square-free condition below does.  The length-mismatch error of
`cosineSimilarity` is kept. -/

/-- Rational embedding vector. -/
abbrev Vec := List ℚ

/-- Dot product loop of `cosineSimilarity`. -/
def dotQ (a b : Vec) : ℚ :=
  (List.zipWith (fun x y => x * y) a b).sum

/-- Squared-magnitude accumulation of `cosineSimilarity`. -/
def sumSqQ (a : Vec) : ℚ :=
  (a.map fun x => x ^ 2).sum

/-- Exact-arithmetic rendering of
`cosineSimilarity(a, b) >= t` as used by the clustering loop:
when `magA * magB = 0` the similarity is `0`; otherwise
`dot / √(magA * magB) ≥ t` is decided by sign analysis and squaring. -/
def cosineGeQ (a b : Vec) (t : ℚ) : Except String Bool :=
  if a.length ≠ b.length then Except.error "Vector length mismatch"
  else
    let dot := dotQ a b
    let m := sumSqQ a * sumSqQ b
    if m = 0 then Except.ok (decide (0 ≥ t))
    else if 0 ≤ t then Except.ok (decide (0 ≤ dot ∧ t ^ 2 * m ≤ dot ^ 2))
    else Except.ok (decide (0 ≤ dot ∨ dot ^ 2 ≤ t ^ 2 * m))

/-- Cluster state of the clustering loop.  The source stores only the
question objects; the model pairs each member with the embedding the loop
held for it in `embeds[i]`, so that centroid facts can be stated. -/
structure ClusterQ where
  centroid : Vec
  questions : List (ExtractedQ × Vec)
deriving DecidableEq

/-- Centroid update of the assignment branch:
`centroid[d] = (centroid[d] * (n - 1) + vec[d]) / n` for each dimension,
where `n` is the member count after the push. -/
def centroidUpdate (c v : Vec) (n : Nat) : Vec :=
  List.zipWith (fun cd vd => (cd * ((n : ℚ) - 1) + vd) / (n : ℚ)) c v

/-- Inner `for (const cluster of clusters)` loop: the question joins the
first cluster whose centroid passes the similarity threshold, updating that
cluster's centroid; `none` when no cluster qualifies. -/
def tryAssign (v : Vec) (q : ExtractedQ) (t : ℚ) :
    List ClusterQ → Except String (Option (List ClusterQ))
  | [] => Except.ok none
  | c :: rest =>
    match cosineGeQ v c.centroid t with
    | Except.error e => Except.error e
    | Except.ok b =>
      if b then
        let qs := c.questions ++ [(q, v)]
        Except.ok (some ({ centroid := centroidUpdate c.centroid v qs.length,
                           questions := qs } :: rest))
      else
        match tryAssign v q t rest with
        | Except.error e => Except.error e
        | Except.ok (some rest') => Except.ok (some (c :: rest'))
        | Except.ok none => Except.ok none

/-- Body of the outer question loop: assign to the first matching cluster or
append a fresh singleton cluster whose centroid is a copy of the vector. -/
def clusterStep (t : ℚ) (clusters : List ClusterQ) (qv : ExtractedQ × Vec) :
    Except String (List ClusterQ) :=
  match tryAssign qv.2 qv.1 t clusters with
  | Except.error e => Except.error e
  | Except.ok (some cs) => Except.ok cs
  | Except.ok none =>
    Except.ok (clusters ++ [{ centroid := qv.2, questions := [(qv.1, qv.2)] }])

/-- Outer question loop: fold `clusterStep` over the questions in input
order, propagating any similarity error. -/
def clusterLoop (t : ℚ) : List (ExtractedQ × Vec) → List ClusterQ → Except String (List ClusterQ)
  | [], clusters => Except.ok clusters
  | qv :: rest, clusters =>
    match clusterStep t clusters qv with
    | Except.error e => Except.error e
    | Except.ok cs => clusterLoop t rest cs

/-- `clusterQuestions(questions, similarityThreshold)`: embed every question
(batching changes scheduling, not the order-preserving result), then run the
greedy first-match assignment loop in input order. -/
def clusterQuestions (embed : String → Vec) (questions : List ExtractedQ) (t : ℚ) :
    Except String (List ClusterQ) :=
  let embeds := questions.map fun q => embed q.text
  clusterLoop t (questions.zip embeds) []

/-- Topic derivation: first element of the member texts stably sorted by
length, i.e. the earliest member of minimal text length. -/
def shortestText (qs : List (ExtractedQ × Vec)) : Option String :=
  qs.foldl
    (fun best p =>
      match best with
      | none => some p.1.text
      | some b => if p.1.text.length < b.length then some p.1.text else best)
    none

/-- Cluster with its derived `topic` field. -/
structure ClusterT where
  centroid : Vec
  questions : List (ExtractedQ × Vec)
  topic : String
deriving DecidableEq

/-- Topic-assignment pass that follows the clustering loop. -/
def addTopics (cs : List ClusterQ) : List ClusterT :=
  cs.map fun c =>
    { centroid := c.centroid, questions := c.questions,
      topic := (shortestText c.questions).getD "" }

/-! #### Element-wise mean of a vector list -/

/-- Element-wise vector addition. -/
def addVec (a b : Vec) : Vec :=
  List.zipWith (fun x y => x + y) a b

/-- Element-wise sum of a list of vectors (empty list sums to the empty
vector). -/
def sumVecList : List Vec → Vec
  | [] => []
  | v :: vs => vs.foldl addVec v

/-- Element-wise arithmetic mean of a list of vectors. -/
def meanVecList (vs : List Vec) : Vec :=
  (sumVecList vs).map fun x => x / (vs.length : ℚ)

/-- Invariant tying a cluster to its members: members exist and the centroid
is the element-wise mean of their embeddings. -/
def ClusterInv (c : ClusterQ) : Prop :=
  c.questions ≠ [] ∧
  c.centroid = meanVecList (c.questions.map fun p => p.2)

/-! ### Slug helpers of contentGapAnalysis.js and ContentGapAnalyzer.js -/

/-- Characters kept by the slug regexes after lower-casing: `[a-z0-9]`. -/
def isSlugChar (c : Char) : Bool :=
  ('a' ≤ c && c ≤ 'z') || c.isDigit

/-- Replaces each maximal run of non-`[a-z0-9]` characters by a single `-`
(the `replace(/[^a-z0-9]+/g, '-')` step); the flag records whether the
previous character belonged to such a run. -/
def slugCollapse : Bool → List Char → List Char
  | _, [] => []
  | prevBad, c :: rest =>
    if isSlugChar c then c :: slugCollapse false rest
    else if prevBad then slugCollapse true rest
    else '-' :: slugCollapse true rest

/-- Strips leading and trailing dashes (the `replace(/^-+|-+$/g, '')` step). -/
def stripDashes (cs : List Char) : List Char :=
  ((cs.dropWhile fun c => c == '-').reverse.dropWhile fun c => c == '-').reverse

/-- Shared slug computation before the length cap. -/
def slugCore (s : String) : String :=
  String.mk (stripDashes (slugCollapse false (s.data.map lowerChar)))

/-- `slugify(str)` of contentGapAnalysis.js (cap 60). -/
def slugify (s : String) : String :=
  strTake (slugCore s) 60

/-- `kebabCase(text)` of ContentGapAnalyzer.js (cap 80). -/
def kebabCase (s : String) : String :=
  strTake (slugCore s) 80

/-! ### Outline generation, `generateOutline` of contentGapAnalysis.js

The HTTP call and `JSON.parse` are external; `LlmRaw` models the joint
outcome of the call and of parsing its text: the call itself may fail
(missing key, HTTP error — propagated), the content may be empty, parse
directly, fail to parse but contain a parseable `{...}` block, contain a
block that still fails to parse (the second `JSON.parse` throws), or contain
no block at all. -/

/-- Outcome of the outline LLM call and subsequent parsing. -/
inductive LlmRaw where
  | failure (message : String)
  | empty
  | validJson (topic : Option String) (outline : Option String)
  | embedded (topic : Option String) (outline : Option String)
  | embeddedBad (raw : String)
  | garbage (raw : String)
deriving DecidableEq

/-- Parsed `{ topic, outline }` object (either field may be absent). -/
structure OutlineResp where
  topic : Option String
  outline : Option String
deriving DecidableEq

/-- `generateOutline(topic, sampleQuestions)` of contentGapAnalysis.js,
abstracted over the call/parse outcome: failures and unparseable responses
throw; a parseable response or embedded block is returned. -/
def generateOutline : LlmRaw → Except String OutlineResp
  | LlmRaw.failure msg => Except.error msg
  | LlmRaw.empty => Except.error "Outline generation returned empty response"
  | LlmRaw.validJson t o => Except.ok { topic := t, outline := o }
  | LlmRaw.embedded t o => Except.ok { topic := t, outline := o }
  | LlmRaw.embeddedBad _ => Except.error "SyntaxError"
  | LlmRaw.garbage raw => Except.error ("Unable to parse outline JSON: " ++ raw)

/-! ### Fallback outline logic of `ContentGapAnalyzer.analyse` (part_010) -/

/-- Outcome of `JSON.parse(jsonStr)` in the analyser. -/
inductive JsonParse where
  | parsed (topic : Option String) (outline : Option String)
  | unparseable
deriving DecidableEq

/-- Outcome of the analyser's `callLLM` try/catch: the call failed, or it
returned `raw` whose parse outcome is given. -/
inductive AnalyzerLlm where
  | failure
  | response (raw : String) (parse : JsonParse)
deriving DecidableEq

/-- Outline recovery of `ContentGapAnalyzer.analyse`: a failed `callLLM` is
replaced by the stringified placeholder
`{ topic: original.slice(0, 50), outline: '- TBD' }` (which then parses
back); an unparseable response falls back to
`{ topic: original.slice(0, 50), outline: jsonStr }`. -/
def analyzerOutlineRec (original : String) : AnalyzerLlm → OutlineResp
  | AnalyzerLlm.failure =>
    { topic := some (strTake original 50), outline := some "- TBD" }
  | AnalyzerLlm.response raw JsonParse.unparseable =>
    { topic := some (strTake original 50), outline := some raw }
  | AnalyzerLlm.response _ (JsonParse.parsed t o) => { topic := t, outline := o }

/-- JavaScript `x || d` for string-or-absent values: `none` and `""` are
falsy. -/
def jsOrString (o : Option String) (d : String) : String :=
  match o with
  | none => d
  | some s => if s = "" then d else s

/-- `computePriority(frequency)` of ContentGapAnalyzer.js:
`Math.min(100, frequency * 10)`. -/
def analyzerComputePriority (frequency : Nat) : Nat :=
  min 100 (frequency * 10)

/-- Gap object assembled by the analyser's per-question loop. -/
structure AnalyzerGap where
  id : String
  topic : String
  question : String
  outline : String
  frequency : Nat
  priority : Nat
deriving DecidableEq

/-- One iteration of the analyser's gap loop after the similarity check:
recover an outline (never throwing), then assemble the gap object with
`topic = parsed.topic || original`, `outline = parsed.outline || ''` and
`priority = computePriority(count)`. -/
def analyzerGapObj (original : String) (count : Nat) (llm : AnalyzerLlm) : AnalyzerGap :=
  let parsed := analyzerOutlineRec original llm
  let topic := jsOrString parsed.topic original
  { id := kebabCase topic, topic := topic, question := original,
    outline := (parsed.outline).getD "", frequency := count,
    priority := analyzerComputePriority count }

/-- The analyser's gap loop over all flagged questions: the LLM fallback
makes each iteration total, so every flagged question yields a gap object. -/
def analyzerProcessGaps (flagged : List (String × Nat)) (llm : String → AnalyzerLlm) :
    List AnalyzerGap :=
  flagged.map fun fc => analyzerGapObj fc.1 fc.2 (llm fc.1)

/-! ### Cosine similarity and `FileVectorStore.query` over idealised reals -/

/-- Dot-product loop of `cosineSimilarity` (utils/math.js) over `ℝ`. -/
def dotR (a b : List ℝ) : ℝ :=
  (List.zipWith (fun x y => x * y) a b).sum

/-- Squared-magnitude accumulation of `cosineSimilarity` over `ℝ`. -/
def sumSqR (a : List ℝ) : ℝ :=
  (a.map fun x => x ^ 2).sum

/-- `cosineSimilarity(a, b)` of utils/math.js: length mismatch throws;
otherwise `denom = √magA * √magB` and the result is `0` when `denom` is `0`,
else `dot / denom`. -/
noncomputable def cosineSimilarity (a b : List ℝ) : Except String ℝ :=
  if a.length ≠ b.length then Except.error "Vector length mismatch"
  else
    let denom := Real.sqrt (sumSqR a) * Real.sqrt (sumSqR b)
    Except.ok (if denom = 0 then 0 else dotR a b / denom)

/-- Stored record of `FileVectorStore`. -/
structure VRecord where
  pageId : String
  vector : List ℝ
  metadata : String

/-- Result row of `FileVectorStore.query`. -/
structure QueryHit where
  pageId : String
  score : ℝ
  metadata : String

/-- The `Object.entries(store).map(...)` pass of `query`: scores every record
in store order; a length mismatch inside `cosineSimilarity` aborts the whole
map (the exception propagates out of `query`). -/
noncomputable def scoreRecords (v : List ℝ) : List VRecord → Except String (List QueryHit)
  | [] => Except.ok []
  | r :: rest =>
    match cosineSimilarity v r.vector with
    | Except.error e => Except.error e
    | Except.ok s =>
      match scoreRecords v rest with
      | Except.error e => Except.error e
      | Except.ok hs => Except.ok ({ pageId := r.pageId, score := s, metadata := r.metadata } :: hs)

/-- `FileVectorStore.query(queryVector, k)`: score all records, sort by score
descending (stable), take the first `k`. -/
noncomputable def queryStore (store : List VRecord) (v : List ℝ) (k : Nat) :
    Except String (List QueryHit) :=
  (scoreRecords v store).map fun hits =>
    (hits.mergeSort fun x y => decide (y.score ≤ x.score)).take k

/-! ### Orchestrator, `runContentGapAnalysis` of contentGapAnalysis.js -/

/-- Network calls made through the embedding and LLM collaborators. -/
inductive NetCall where
  | embed (text : String)
  | llm (topic : String)
deriving DecidableEq

/-- Best documentation match returned by `docVectorStore.query(centroid, 1)`,
abstracted to its score (the orchestrator reads nothing else). -/
structure DocHit where
  score : ℚ
deriving DecidableEq

/-- Output suggestion of the orchestrator. -/
structure Suggestion where
  topic : String
  outline : Option String
  priority : ℤ
  frequency : Nat
  recurring : Nat
deriving DecidableEq

/-- Return value of `runContentGapAnalysis`. -/
structure RunOutput where
  suggestions : List Suggestion
  recurringSummary : List (String × Nat)
deriving DecidableEq

/-- Flagged cluster (`{ ...cluster, docMatch }`). -/
structure GapCluster where
  cluster : ClusterT
  docMatch : Option DocHit
deriving DecidableEq

/-- `detectGaps(clusters, coverageThreshold)`: flag a cluster when the doc
store returns no neighbour or the best score is below the threshold. -/
def detectGaps (queryDoc : Vec → Option DocHit) (clusters : List ClusterT) (coverage : ℚ) :
    List GapCluster :=
  clusters.foldl
    (fun acc c =>
      match queryDoc c.centroid with
      | none => acc ++ [{ cluster := c, docMatch := none }]
      | some best =>
        if best.score < coverage then acc ++ [{ cluster := c, docMatch := some best }]
        else acc)
    []

/-- Per-gap loop of `runContentGapAnalysis`: record the theme, generate the
outline (errors propagate and abort the run), score the priority and collect
the suggestion.  The second component lists the LLM calls issued, in order. -/
def processGaps (llm : String → LlmRaw) (now : String) (wF wR : ℚ) (maxFrequency : Nat) :
    List GapCluster → ThemeMap → Except String (List Suggestion × ThemeMap) × List NetCall
  | [], m => (Except.ok ([], m), [])
  | g :: rest, m =>
    let themeId := slugify g.cluster.topic
    let rm := recordTheme m themeId (some g.cluster.topic) now
    let call := NetCall.llm g.cluster.topic
    match generateOutline (llm g.cluster.topic) with
    | Except.error e => (Except.error e, [call])
    | Except.ok outl =>
      let frequency := g.cluster.questions.length
      let recurring := min 100 (rm.1.occurrences * 10)
      match computePriority (frequency : ℚ) (recurring : ℚ) (maxFrequency : ℚ) wF wR with
      | Except.error e => (Except.error e, [call])
      | Except.ok p =>
        let s : Suggestion := { topic := (outl.topic).getD g.cluster.topic,
                                outline := outl.outline, priority := p,
                                frequency := frequency, recurring := rm.1.occurrences }
        match processGaps llm now wF wR maxFrequency rest rm.2 with
        | (Except.error e, calls) => (Except.error e, call :: calls)
        | (Except.ok (ss, mf), calls) => (Except.ok (s :: ss, mf), call :: calls)

/-- Default `clusterSimilarityThreshold`. -/
def defaultSimilarityThreshold : ℚ := 85 / 100

/-- Default `coverageThreshold`. -/
def defaultCoverageThreshold : ℚ := 8 / 10

/-- Default priority weights `{ frequency: 0.7, recurring: 0.3 }`. -/
def defaultWeightFrequency : ℚ := 7 / 10

/-- Default priority weight for the recurring dimension. -/
def defaultWeightRecurring : ℚ := 3 / 10

/-- `runContentGapAnalysis(options)`: extract questions (returning
immediately when there are none), cluster, detect gaps, process each gap,
sort by priority descending and save the theme store once.  Collaborators
are the `embed` and `llm` oracles and the external doc-store lookup
`queryDoc`; the second component lists every collaborator network call.
The source loads the theme store lazily inside the first `recordTheme`; the
model loads it after clustering, which differs only on the run path with
questions but zero gaps (untouched by the claims, and on which the source
would persist a null cache). -/
def runContentGapAnalysis (convs : List Conv) (embed : String → Vec)
    (queryDoc : Vec → Option DocHit) (llm : String → LlmRaw)
    (file : FileContent ThemeMap) (now : String)
    (coverage simThreshold wF wR : ℚ) :
    Except String (RunOutput × FileContent ThemeMap) × List NetCall :=
  let questions := extractQuestions convs
  if questions.length = 0 then
    (Except.ok ({ suggestions := [], recurringSummary := [] }, file), [])
  else
    let embedCalls := questions.map fun q => NetCall.embed q.text
    match clusterQuestions embed questions simThreshold with
    | Except.error e => (Except.error e, embedCalls)
    | Except.ok clusters =>
      let clustersT := addTopics clusters
      let m0 := clustersT.foldl (fun mx c => max mx c.questions.length) 0
      let maxFrequency := if m0 = 0 then 1 else m0
      match gapAnalysisLoad file with
      | Except.error _ => (Except.error "SyntaxError", embedCalls)
      | Except.ok themes0 =>
        let gaps := detectGaps queryDoc clustersT coverage
        match processGaps llm now wF wR maxFrequency gaps themes0 with
        | (Except.error e, llmCalls) => (Except.error e, embedCalls ++ llmCalls)
        | (Except.ok (ss, mf), llmCalls) =>
          let sorted := ss.mergeSort fun x y => decide (y.priority ≤ x.priority)
          (Except.ok ({ suggestions := sorted,
                        recurringSummary := sorted.map fun s => (s.topic, s.recurring) },
                      FileContent.valid mf),
           embedCalls ++ llmCalls)

/-! ## Claim C4: priority computation -/

/-- **C4**: `computePriority` throws an explicit error whenever
`maxFrequency` is non-positive; and for every `frequency ≥ 0` and
`recurring ∈ [0, 100]` with positive `maxFrequency` and the default weights
`0.7`/`0.3`, it returns
`round((frequency/maxFrequency)*100 * wF + recurring * wR)` clamped to
`[0, 100]`, so every computed priority lies in `[0, 100]`. -/
theorem computePriority_spec :
    (∀ f r mf wF wR : ℚ, mf ≤ 0 →
      computePriority f r mf wF wR =
        Except.error "computePriority: maxFrequency must be a positive number") ∧
    (∀ f r mf : ℚ, 0 ≤ f → 0 ≤ r → r ≤ 100 → 0 < mf →
      computePriority f r mf defaultWeightFrequency defaultWeightRecurring =
        Except.ok (min 100 (max 0
          (roundJS (f / mf * 100 * defaultWeightFrequency + r * defaultWeightRecurring)))) ∧
      ∀ p : ℤ,
        computePriority f r mf defaultWeightFrequency defaultWeightRecurring = Except.ok p →
          0 ≤ p ∧ p ≤ 100) := by
  constructor
  · intro f r mf wF wR h
    simp [computePriority, h]
  · intro f r mf hf hr hr100 hmf
    have h1 : 0 ≤ f / mf := div_nonneg hf hmf.le
    have hraw : 0 ≤ f / mf * 100 * defaultWeightFrequency + r * defaultWeightRecurring := by
      unfold defaultWeightFrequency defaultWeightRecurring
      nlinarith
    have hfloor :
        0 ≤ roundJS (f / mf * 100 * defaultWeightFrequency + r * defaultWeightRecurring) := by
      unfold roundJS
      exact Int.floor_nonneg.mpr (by linarith)
    have hmax :
        max 0 (roundJS (f / mf * 100 * defaultWeightFrequency + r * defaultWeightRecurring)) =
          roundJS (f / mf * 100 * defaultWeightFrequency + r * defaultWeightRecurring) :=
      max_eq_right hfloor
    have hne : ¬ mf ≤ 0 := not_le.mpr hmf
    constructor
    · rw [hmax]
      simp [computePriority, hne]
    · intro p hp
      simp [computePriority, hne] at hp
      constructor
      · rw [← hp]
        exact le_min (by norm_num) hfloor
      · rw [← hp]
        exact min_le_left _ _

/-- Witness for C4 at `frequency = 2`, `recurring = 20`, `maxFrequency = 4`. -/
theorem computePriority_spec_witness :
    computePriority 2 20 4 defaultWeightFrequency defaultWeightRecurring =
      Except.ok (min 100 (max 0
        (roundJS (2 / 4 * 100 * defaultWeightFrequency + 20 * defaultWeightRecurring)))) ∧
    computePriority 0 0 0 1 1 =
      Except.error "computePriority: maxFrequency must be a positive number" :=
  ⟨(computePriority_spec.2 2 20 4 (by norm_num) (by norm_num) (by norm_num) (by norm_num)).1,
   computePriority_spec.1 0 0 0 1 1 le_rfl⟩

/-! ## Claim C9: recurrence accumulation -/

/-- **C9**: each `recordTheme(id)` call increments the theme's `occurrences`
counter by exactly one (independent of cluster size — the count is not a
parameter), and three `save()`-committed single-`recordTheme` runs starting
from a missing file leave a backing file from which a fresh instance reads
`occurrences = 3`. -/
theorem recordTheme_recurrence :
    (∀ (m : ThemeMap) (id : String) (metaTopic : Option String) (now : String),
      ((recordTheme m id metaTopic now).1).occurrences =
        ((getThemeRec m id).elim 0 fun r => r.occurrences) + 1) ∧
    (∀ (id : String) (top1 top2 top3 : Option String) (t1 t2 t3 : String),
      ((themeRunOnce FileContent.missing id top1 t1).bind fun f1 =>
        (themeRunOnce f1 id top2 t2).bind fun f2 =>
          themeRunOnce f2 id top3 t3) =
        Except.ok (FileContent.valid [(id, ⟨3, some t3, top3⟩)]) ∧
      gapAnalysisGetTheme (FileContent.valid [(id, ⟨3, some t3, top3⟩)]) id =
        Except.ok (some ⟨3, some t3, top3⟩)) := by
  constructor
  · intro m id metaTopic now
    cases h : getThemeRec m id <;> simp [recordTheme, h]
  · intro id top1 top2 top3 t1 t2 t3
    constructor
    · simp [themeRunOnce, gapAnalysisRecordTheme, gapAnalysisLoad, recordTheme,
        getThemeRec, setThemeRec, Except.bind, Except.map, List.find?, List.any]
    · simp [gapAnalysisGetTheme, gapAnalysisLoad, getThemeRec, Except.map, List.find?]

/-! ## Claim C2: corrupted backing file -/

/-- **C2 counterexample**: on a corrupt backing file, the gap store that owns
`recordTheme` (`GapAnalysisStore`) re-throws the JSON parse error from
`_load` instead of quarantining the file, so the next `recordTheme()` /
`getTheme()` call fails. -/
theorem gapStore_corrupt_throws :
    gapAnalysisRecordTheme (FileContent.corrupt "no json here") "dark-mode"
        (some "Dark mode") "2026-02-03T00:00:00.000Z" =
      Except.error LoadError.parseFailure ∧
    gapAnalysisGetTheme (FileContent.corrupt "no json here") "dark-mode" =
      Except.error LoadError.parseFailure :=
  ⟨rfl, rfl⟩

/-- **C2 amended**: `ContentGapStore._load` (the store with `get`/`upsert`)
quarantines a corrupt backing file to `<file>.corrupt_<timestamp>` and
re-initialises empty, so its `get()` succeeds returning `null`;
`GapAnalysisStore._load` (the store with `recordTheme`) instead re-throws
the parse error. -/
theorem corrupt_load_behaviour :
    (∀ filename nowMs raw gapId,
      contentGapGet filename nowMs (FileContent.corrupt raw) gapId =
        (none, some (filename ++ ".corrupt_" ++ nowMs))) ∧
    (∀ raw, gapAnalysisLoad (FileContent.corrupt raw) =
      Except.error LoadError.parseFailure) :=
  ⟨fun _ _ _ _ => rfl, fun _ => rfl⟩

/-! ## Claim C5: atomicity of persistence -/

/-- Temp path of `ContentGapStore._persist` never collides with the target
path. -/
theorem contentGapTempPath_ne (filename pid nowMs : String) :
    contentGapTempPath filename pid nowMs ≠ filename := by
  intro h
  have hlen := congrArg String.length h
  simp [contentGapTempPath, String.length_append] at hlen
  have h1 : (".").length = 1 := rfl
  have h2 : (".tmp").length = 4 := rfl
  omega

/-- **C5 counterexample**: `GapAnalysisStore._persist` (the body of `save()`)
writes the JSON payload directly to the target path with no temp file or
rename, so a crash mid-write can leave the previously persisted file
corrupted: from a file holding `"OLD"`, a crash state reachable while
persisting `"NEW"` holds `"CORRUPT"`. -/
theorem gapStore_save_not_atomic :
    FsOp.writeFile "data/gap_analysis.json" "NEW" ∈
      gapAnalysisPersistOps "data/gap_analysis.json" "data" "NEW" ∧
    ∃ fs : Fs,
      CrashReachable (gapAnalysisPersistOps "data/gap_analysis.json" "data" "NEW")
        (fun p => if p = "data/gap_analysis.json" then some "OLD" else none) fs ∧
      fs "data/gap_analysis.json" = some "CORRUPT" ∧
      some "CORRUPT" ≠ some "OLD" ∧ some "CORRUPT" ≠ some "NEW" := by
  refine ⟨by simp [gapAnalysisPersistOps], ?_⟩
  refine ⟨applyFsOp
      (runFsOps ((gapAnalysisPersistOps "data/gap_analysis.json" "data" "NEW").take 1)
        (fun p => if p = "data/gap_analysis.json" then some "OLD" else none))
      (FsOp.writeFile "data/gap_analysis.json" "CORRUPT"), ?_, ?_, by simp, by simp⟩
  · exact Or.inr ⟨1, "data/gap_analysis.json", "NEW", "CORRUPT", rfl, rfl⟩
  · simp [gapAnalysisPersistOps, runFsOps, applyFsOp]

/-- **C5 amended**: `ContentGapStore._persist` is atomic — it writes a temp
file in the same directory and renames it over the target — so every
crash-reachable state leaves the target holding either the old or the new
content.  `GapAnalysisStore.save()` has no such guarantee (see the
counterexample). -/
theorem contentGapPersist_atomic (filename dirName pid nowMs json : String)
    (fs0 : Fs) (old : String) (hold : fs0 filename = some old) (fs : Fs)
    (hreach : CrashReachable (contentGapPersistOps filename dirName pid nowMs json) fs0 fs) :
    fs filename = some old ∨ fs filename = some json := by
  have hne := contentGapTempPath_ne filename pid nowMs
  rcases hreach with ⟨k, hk, rfl⟩ | ⟨k, p, c, junk, hget, rfl⟩
  · simp only [contentGapPersistOps, List.length_cons, List.length_nil] at hk
    interval_cases k
    · exact Or.inl hold
    · exact Or.inl hold
    · left
      simp only [contentGapPersistOps, List.take, runFsOps, List.foldl, applyFsOp]
      rw [if_neg (Ne.symm hne)]
      exact hold
    · right
      simp only [contentGapPersistOps, List.take, runFsOps, List.foldl, applyFsOp]
      simp
  · rcases k with _ | _ | _ | n
    · simp [contentGapPersistOps] at hget
    · simp only [contentGapPersistOps, List.get?] at hget
      rw [Option.some_inj] at hget
      obtain ⟨hp, hc⟩ := FsOp.writeFile.inj hget
      left
      subst hp
      simp only [contentGapPersistOps, List.take, runFsOps, List.foldl, applyFsOp]
      rw [if_neg (Ne.symm hne)]
      exact hold
    · simp [contentGapPersistOps] at hget
    · simp [contentGapPersistOps] at hget

/-- Witness for C5's amended theorem: the initial state itself is
crash-reachable (empty prefix), where the target still holds the old
content. -/
theorem contentGapPersist_atomic_witness :
    ((fun p => if p = "f" then some "O" else none) : Fs) "f" = some "O" ∨
    ((fun p => if p = "f" then some "O" else none) : Fs) "f" = some "N" :=
  contentGapPersist_atomic "f" "d" "9" "7" "N"
    (fun p => if p = "f" then some "O" else none) "O" (by simp) _
    (Or.inl ⟨0, Nat.zero_le _, rfl⟩)

/-! ## Claim C10: query aborts on dimension mismatch -/

/-- Scoring aborts with the mismatch error as soon as any stored record's
vector length differs from the query vector's. -/
theorem scoreRecords_mismatch (v : List ℝ) :
    ∀ store : List VRecord, (∃ r ∈ store, r.vector.length ≠ v.length) →
      scoreRecords v store = Except.error "Vector length mismatch" := by
  intro store
  induction store with
  | nil =>
    rintro ⟨r, hr, _⟩
    cases hr
  | cons r rest ih =>
    rintro ⟨s, hs, hlen⟩
    by_cases hr : v.length = r.vector.length
    · have hw : cosineSimilarity v r.vector =
          Except.ok (if Real.sqrt (sumSqR v) * Real.sqrt (sumSqR r.vector) = 0 then 0
            else dotR v r.vector / (Real.sqrt (sumSqR v) * Real.sqrt (sumSqR r.vector))) := by
        simp [cosineSimilarity, hr]
      have hrest : ∃ u ∈ rest, u.vector.length ≠ v.length := by
        rcases List.mem_cons.mp hs with rfl | hmem
        · exact absurd hr.symm hlen
        · exact ⟨s, hmem, hlen⟩
      simp only [scoreRecords, hw, ih hrest]
    · have hcos : cosineSimilarity v r.vector = Except.error "Vector length mismatch" := by
        simp [cosineSimilarity, hr]
      simp only [scoreRecords, hcos]

/-- **C10**: whenever the vector store holds a record whose vector length
differs from the query vector's length, `query()` throws the
`'Vector length mismatch'` error instead of returning results. -/
theorem query_mismatch_throws (store : List VRecord) (v : List ℝ) (k : Nat)
    (h : ∃ r ∈ store, r.vector.length ≠ v.length) :
    queryStore store v k = Except.error "Vector length mismatch" := by
  have hs := scoreRecords_mismatch v store h
  simp [queryStore, hs, Except.map]

/-- Witness for C10: a one-record store with a 2-dimensional vector queried
with a 1-dimensional vector. -/
theorem query_mismatch_throws_witness :
    queryStore [⟨"p1", [1, 0], "m"⟩] [1] 5 = Except.error "Vector length mismatch" :=
  query_mismatch_throws [⟨"p1", [1, 0], "m"⟩] [1] 5
    ⟨⟨"p1", [1, 0], "m"⟩, by simp, by simp⟩

/-! ## Claim C7: cosine similarity formula and score bounds -/

/-- Squared magnitudes are non-negative. -/
theorem sumSqR_nonneg (a : List ℝ) : 0 ≤ sumSqR a := by
  apply List.sum_nonneg
  intro x hx
  obtain ⟨y, _, rfl⟩ := List.mem_map.mp hx
  positivity

/-- Cauchy–Schwarz for the list dot product, squared form. -/
theorem dotR_sq_le (a : List ℝ) : ∀ b : List ℝ, (dotR a b) ^ 2 ≤ sumSqR a * sumSqR b := by
  induction a with
  | nil =>
    intro b
    simp [dotR, sumSqR]
  | cons x xs ih =>
    intro b
    cases b with
    | nil =>
      have hA := sumSqR_nonneg (x :: xs)
      simp [dotR, sumSqR]
    | cons y ys =>
      have h := ih ys
      have hA := sumSqR_nonneg xs
      have hB := sumSqR_nonneg ys
      have hd : dotR (x :: xs) (y :: ys) = x * y + dotR xs ys := by simp [dotR]
      have hsA : sumSqR (x :: xs) = x ^ 2 + sumSqR xs := by simp [sumSqR]
      have hsB : sumSqR (y :: ys) = y ^ 2 + sumSqR ys := by simp [sumSqR]
      rw [hd, hsA, hsB]
      rcases eq_or_lt_of_le hB with hB0 | hBpos
      · have hd0 : dotR xs ys = 0 := by nlinarith [sq_nonneg (dotR xs ys)]
        rw [hd0, ← hB0]
        nlinarith [sq_nonneg x, sq_nonneg y, sq_nonneg (x * y)]
      · nlinarith [sq_nonneg (x * sumSqR ys - y * dotR xs ys),
          mul_nonneg (sq_nonneg y) (sub_nonneg.mpr h),
          mul_nonneg hB (sub_nonneg.mpr h)]

/-- Cauchy–Schwarz in square-root form. -/
theorem abs_dotR_le (a b : List ℝ) :
    |dotR a b| ≤ Real.sqrt (sumSqR a) * Real.sqrt (sumSqR b) := by
  calc |dotR a b| = Real.sqrt ((dotR a b) ^ 2) := (Real.sqrt_sq_eq_abs _).symm
    _ ≤ Real.sqrt (sumSqR a * sumSqR b) := Real.sqrt_le_sqrt (dotR_sq_le a b)
    _ = Real.sqrt (sumSqR a) * Real.sqrt (sumSqR b) := Real.sqrt_mul (sumSqR_nonneg a) _

/-- Any score `cosineSimilarity` actually returns lies in `[-1, 1]`. -/
theorem cosineSimilarity_ok_bounds (a b : List ℝ) (s : ℝ)
    (h : cosineSimilarity a b = Except.ok s) : -1 ≤ s ∧ s ≤ 1 := by
  by_cases hlen : a.length = b.length
  · rw [cosineSimilarity, if_neg (by simpa using hlen), Except.ok.injEq] at h
    split_ifs at h with hd
    · subst h
      norm_num
    · have hdenom0 : 0 ≤ Real.sqrt (sumSqR a) * Real.sqrt (sumSqR b) :=
        mul_nonneg (Real.sqrt_nonneg _) (Real.sqrt_nonneg _)
      have hpos : 0 < Real.sqrt (sumSqR a) * Real.sqrt (sumSqR b) :=
        lt_of_le_of_ne hdenom0 (Ne.symm hd)
      have habs : |dotR a b / (Real.sqrt (sumSqR a) * Real.sqrt (sumSqR b))| ≤ 1 := by
        rw [abs_div, abs_of_pos hpos]
        exact (div_le_one hpos).mpr (abs_dotR_le a b)
      rw [← h]
      exact abs_le.mp habs
  · simp [cosineSimilarity, hlen] at h

/-- Every hit produced by a successful scoring pass is bounded. -/
theorem scoreRecords_ok_bounds (v : List ℝ) :
    ∀ (store : List VRecord) (hs : List QueryHit),
      scoreRecords v store = Except.ok hs → ∀ hit ∈ hs, -1 ≤ hit.score ∧ hit.score ≤ 1 := by
  intro store
  induction store with
  | nil =>
    intro hs h
    simp only [scoreRecords, Except.ok.injEq] at h
    subst h
    intro hit hmem
    cases hmem
  | cons r rest ih =>
    intro hs hok hit hmem
    cases hc : cosineSimilarity v r.vector with
    | error e =>
      rw [scoreRecords, hc] at hok
      cases hok
    | ok s =>
      cases hr : scoreRecords v rest with
      | error e =>
        rw [scoreRecords, hc, hr] at hok
        cases hok
      | ok hs' =>
        rw [scoreRecords, hc, hr, Except.ok.injEq] at hok
        subst hok
        rcases List.mem_cons.mp hmem with rfl | hmem'
        · exact cosineSimilarity_ok_bounds v r.vector s hc
        · exact ih hs' hr hit hmem'

/-- **C7**: for equal-length vectors, `cosineSimilarity` computes
`dot / (√magA * √magB)`, returns exactly `0` when either vector has zero
magnitude, and every score it returns — hence every score surfaced by the
vector store's `query()` — lies in `[-1, 1]`. -/
theorem cosineSimilarity_query_bounds :
    (∀ a b : List ℝ, a.length = b.length →
      ((sumSqR a = 0 ∨ sumSqR b = 0) → cosineSimilarity a b = Except.ok 0) ∧
      (Real.sqrt (sumSqR a) * Real.sqrt (sumSqR b) ≠ 0 →
        cosineSimilarity a b =
          Except.ok (dotR a b / (Real.sqrt (sumSqR a) * Real.sqrt (sumSqR b)))) ∧
      (∀ s, cosineSimilarity a b = Except.ok s → -1 ≤ s ∧ s ≤ 1)) ∧
    (∀ (store : List VRecord) (v : List ℝ) (k : Nat) (hits : List QueryHit),
      queryStore store v k = Except.ok hits →
        ∀ hit ∈ hits, -1 ≤ hit.score ∧ hit.score ≤ 1) := by
  constructor
  · intro a b hlen
    refine ⟨?_, ?_, fun s h => cosineSimilarity_ok_bounds a b s h⟩
    · intro hzero
      have hd : Real.sqrt (sumSqR a) * Real.sqrt (sumSqR b) = 0 := by
        rcases hzero with h0 | h0 <;> simp [h0, Real.sqrt_zero]
      simp [cosineSimilarity, hlen, hd]
    · intro hne
      simp [cosineSimilarity, hlen, hne]
  · intro store v k hits hq hit hmem
    cases hsr : scoreRecords v store with
    | error e =>
      rw [queryStore, hsr] at hq
      cases hq
    | ok hs =>
      rw [queryStore, hsr] at hq
      simp only [Except.map, Except.ok.injEq] at hq
      subst hq
      have hmem2 : hit ∈ hs := by
        have h1 : hit ∈ hs.mergeSort fun x y => decide (y.score ≤ x.score) :=
          List.take_subset _ _ hmem
        exact (List.mergeSort_perm hs _).mem_iff.mp h1
      exact scoreRecords_ok_bounds v store hs hsr hit hmem2

/-- Witness for C7: the zero vector against itself scores exactly `0`, and
the empty store yields a (vacuously bounded) empty hit list. -/
theorem cosineSimilarity_query_bounds_witness :
    cosineSimilarity [0] [0] = Except.ok 0 ∧
    ∀ hit ∈ ([] : List QueryHit), -1 ≤ hit.score ∧ hit.score ≤ 1 :=
  ⟨(cosineSimilarity_query_bounds.1 [0] [0] rfl).1 (Or.inl (by simp [sumSqR])),
   cosineSimilarity_query_bounds.2 [] [0] 5 [] (by simp [queryStore, scoreRecords, Except.map])⟩

/-! ## Claim C6: centroids are member means -/

/-- Appending one more vector adds it to the running sum. -/
theorem sumVecList_snoc (w : Vec) (ws : List Vec) (v : Vec) :
    sumVecList ((w :: ws) ++ [v]) = addVec (sumVecList (w :: ws)) v := by
  simp only [List.cons_append, sumVecList, List.foldl_append, List.foldl]

/-- Pointwise form of one incremental-mean step, free of any length
assumptions thanks to `zipWith` truncation. -/
theorem zipWith_mean_step (m : ℚ) (hm : m ≠ 0) :
    ∀ s v : List ℚ,
      List.zipWith (fun cd vd => (cd * ((m + 1) - 1) + vd) / (m + 1))
        (s.map fun x => x / m) v =
      (List.zipWith (fun x y => x + y) s v).map fun x => x / (m + 1) := by
  intro s
  induction s with
  | nil =>
    intro v
    simp
  | cons a s ih =>
    intro v
    cases v with
    | nil => simp
    | cons b v =>
      simp only [List.map_cons, List.zipWith_cons_cons, List.cons.injEq]
      refine ⟨?_, ih v⟩
      rw [add_sub_cancel_right, div_mul_cancel₀ a hm]

/-- Incremental-mean step: for a non-empty vector family, the centroid
update `c' = (c*(n-1) + v)/n` carries the element-wise mean of the family to
the mean of the extended family. -/
theorem meanVec_snoc (vs : List Vec) (v : Vec) (hvs : vs ≠ []) :
    centroidUpdate (meanVecList vs) v (vs.length + 1) = meanVecList (vs ++ [v]) := by
  obtain ⟨w, ws, rfl⟩ : ∃ w ws, vs = w :: ws := by
    cases vs with
    | nil => exact absurd rfl hvs
    | cons w ws => exact ⟨w, ws, rfl⟩
  have hm : ((w :: ws).length : ℚ) ≠ 0 := by
    rw [List.length_cons]
    exact_mod_cast Nat.succ_ne_zero ws.length
  calc centroidUpdate (meanVecList (w :: ws)) v ((w :: ws).length + 1)
      = List.zipWith
          (fun cd vd => (cd * ((((w :: ws).length : ℚ) + 1) - 1) + vd) /
            (((w :: ws).length : ℚ) + 1))
          ((sumVecList (w :: ws)).map fun x => x / ((w :: ws).length : ℚ)) v := by
        simp only [centroidUpdate, meanVecList]
        congr 1
        funext cd vd
        push_cast
        ring
    _ = (List.zipWith (fun x y => x + y) (sumVecList (w :: ws)) v).map
          fun x => x / (((w :: ws).length : ℚ) + 1) :=
        zipWith_mean_step ((w :: ws).length : ℚ) hm (sumVecList (w :: ws)) v
    _ = meanVecList ((w :: ws) ++ [v]) := by
        rw [meanVecList, sumVecList_snoc, addVec]
        congr 1
        funext x
        simp only [List.length_append, List.length_cons, List.length_nil]
        push_cast
        ring

/-- A freshly created singleton cluster satisfies the centroid invariant. -/
theorem clusterInv_singleton (q : ExtractedQ) (v : Vec) :
    ClusterInv { centroid := v, questions := [(q, v)] } := by
  refine ⟨by simp, ?_⟩
  simp [meanVecList, sumVecList, div_one]

/-- The first-match assignment pass preserves the centroid invariant. -/
theorem tryAssign_inv (v : Vec) (q : ExtractedQ) (t : ℚ) :
    ∀ (cs cs' : List ClusterQ),
      (∀ c ∈ cs, ClusterInv c) → tryAssign v q t cs = Except.ok (some cs') →
      ∀ c ∈ cs', ClusterInv c := by
  intro cs
  induction cs with
  | nil =>
    intro cs' _ h
    simp [tryAssign] at h
  | cons c rest ih =>
    intro cs' hinv h
    cases hc : cosineGeQ v c.centroid t with
    | error e =>
      simp only [tryAssign, hc] at h
      exact Except.noConfusion h
    | ok b =>
      simp only [tryAssign, hc] at h
      split_ifs at h with hb
      · rw [Except.ok.injEq, Option.some.injEq] at h
        obtain ⟨hne, hmean⟩ := hinv c (by simp)
        have hmapne : (c.questions.map fun p => p.2) ≠ [] := by
          simpa using hne
        have hstep :
            centroidUpdate c.centroid v (c.questions.length + 1) =
              meanVecList ((c.questions.map fun p => p.2) ++ [v]) := by
          have hs := meanVec_snoc (c.questions.map fun p => p.2) v hmapne
          rwa [List.length_map, ← hmean] at hs
        subst h
        intro d hd
        rcases List.mem_cons.mp hd with rfl | hdrest
        · refine ⟨by simp, ?_⟩
          simpa [List.map_append] using hstep
        · exact hinv d (by simp [hdrest])
      · cases hrest : tryAssign v q t rest with
        | error e =>
          rw [hrest] at h
          cases h
        | ok o =>
          cases o with
          | none =>
            rw [hrest] at h
            cases h
          | some rest' =>
            rw [hrest] at h
            rw [Except.ok.injEq, Option.some.injEq] at h
            subst h
            intro d hd
            rcases List.mem_cons.mp hd with rfl | hdrest
            · exact hinv d (by simp)
            · exact ih rest' (fun u hu => hinv u (by simp [hu])) hrest d hdrest

/-- One step of the outer clustering loop preserves the centroid invariant. -/
theorem clusterStep_inv (t : ℚ) (cs : List ClusterQ) (qv : ExtractedQ × Vec)
    (cs' : List ClusterQ) (hinv : ∀ c ∈ cs, ClusterInv c)
    (h : clusterStep t cs qv = Except.ok cs') : ∀ c ∈ cs', ClusterInv c := by
  cases ht : tryAssign qv.2 qv.1 t cs with
  | error e =>
    simp only [clusterStep, ht] at h
    exact Except.noConfusion h
  | ok o =>
    cases o with
    | some l =>
      simp only [clusterStep, ht, Except.ok.injEq] at h
      subst h
      exact tryAssign_inv qv.2 qv.1 t cs l hinv ht
    | none =>
      simp only [clusterStep, ht, Except.ok.injEq] at h
      subst h
      intro c hc
      rcases List.mem_append.mp hc with hold | hnew
      · exact hinv c hold
      · simp only [List.mem_singleton] at hnew
        subst hnew
        exact clusterInv_singleton qv.1 qv.2

/-- The whole clustering loop preserves the centroid invariant. -/
theorem clusterLoop_inv (t : ℚ) :
    ∀ (l : List (ExtractedQ × Vec)) (init out : List ClusterQ),
      (∀ c ∈ init, ClusterInv c) → clusterLoop t l init = Except.ok out →
      ∀ c ∈ out, ClusterInv c := by
  intro l
  induction l with
  | nil =>
    intro init out h hcl
    rw [clusterLoop, Except.ok.injEq] at hcl
    subst hcl
    exact h
  | cons qv rest ih =>
    intro init out h hcl
    cases hs : clusterStep t init qv with
    | error e =>
      simp only [clusterLoop, hs] at hcl
      exact Except.noConfusion hcl
    | ok mid =>
      simp only [clusterLoop, hs] at hcl
      exact ih mid out (clusterStep_inv t init qv mid h hs) hcl

/-- **C6**: every cluster produced by `clusterQuestions` has as centroid the
exact element-wise arithmetic mean of the embedding vectors of all its
member questions — the incremental update `c' = (c*(n-1) + v)/n` maintains
the running mean. -/
theorem clusterQuestions_centroid_mean (embed : String → Vec) (qs : List ExtractedQ) (t : ℚ)
    (cs : List ClusterQ) (h : clusterQuestions embed qs t = Except.ok cs) :
    ∀ c ∈ cs, c.centroid = meanVecList (c.questions.map fun p => p.2) := by
  intro c hc
  simp only [clusterQuestions] at h
  exact (clusterLoop_inv t (qs.zip (qs.map fun q => embed q.text)) [] cs
    (by simp) h c hc).2

/-- Witness for C6: two questions embedded at `[1]` with threshold `1/2`
merge into one cluster whose centroid `[1]` is the mean of the two member
embeddings. -/
theorem clusterQuestions_centroid_mean_witness :
    (ClusterQ.mk [1] [(⟨"a?", "", none⟩, [1]), (⟨"b?", "", none⟩, [1])]).centroid =
      meanVecList ((ClusterQ.mk [1]
        [(⟨"a?", "", none⟩, [1]), (⟨"b?", "", none⟩, [1])]).questions.map fun p => p.2) :=
  clusterQuestions_centroid_mean (fun _ => [1]) [⟨"a?", "", none⟩, ⟨"b?", "", none⟩] (1 / 2)
    [⟨[1], [(⟨"a?", "", none⟩, [1]), (⟨"b?", "", none⟩, [1])]⟩]
    (by with_unfolding_all rfl) _ (List.mem_singleton.mpr rfl)

/-! ## Claim C1: question extraction -/

/-- Push-loops over an option-producing step are `filterMap`s. -/
theorem foldl_push_filterMap {α : Type} (f : α → Option ExtractedQ) :
    ∀ (l : List α) (acc : List ExtractedQ),
      l.foldl (fun a x => extractPush a (f x)) acc = acc ++ l.filterMap f := by
  intro l
  induction l with
  | nil =>
    intro acc
    simp
  | cons x xs ih =>
    intro acc
    cases hf : f x with
    | none =>
      simp only [List.foldl_cons, hf]
      rw [ih]
      simp [extractPush, List.filterMap_cons, hf]
    | some q =>
      simp only [List.foldl_cons, hf]
      rw [ih]
      simp [extractPush, List.filterMap_cons, hf]

/-- Accumulator form of `extractQuestions`. -/
theorem extractQuestions_acc :
    ∀ (convs : List Conv) (acc : List ExtractedQ),
      convs.foldl
        (fun acc conv =>
          match conv with
          | Conv.obj id ts msgs =>
            msgs.foldl (fun acc2 m => extractPush acc2 (msgQuestion (id.getD "") ts m)) acc
          | _ => acc)
        acc = acc ++ (convs.map convQuestions).flatten := by
  intro convs
  induction convs with
  | nil =>
    intro acc
    simp
  | cons conv rest ih =>
    intro acc
    rw [List.foldl_cons, ih]
    cases conv with
    | obj id ts msgs =>
      show (msgs.foldl
          (fun acc2 m => extractPush acc2 (msgQuestion (id.getD "") ts m)) acc) ++ _ = _
      rw [foldl_push_filterMap]
      simp [convQuestions]
    | strings msgs =>
      show acc ++ _ = _
      simp [convQuestions]
    | nullish =>
      show acc ++ _ = _
      simp [convQuestions]

/-- `extractQuestions` flattens the per-conversation question lists. -/
theorem extractQuestions_eq (convs : List Conv) :
    extractQuestions convs = (convs.map convQuestions).flatten := by
  rw [extractQuestions]
  simpa using extractQuestions_acc convs []

/-- Characterisation of one message passing the extraction filter. -/
theorem msgQuestion_eq_some (cid : String) (cts : Option String) (m : ChatMsg)
    (x : ExtractedQ) :
    msgQuestion cid cts m = some x ↔
      m.author = some "user" ∧ ∃ t, m.text = some t ∧
        isQuestionHeuristic (jsTrim t) = true ∧
        x = ⟨jsTrim t, cid, m.timestamp.orElse fun _ => cts⟩ := by
  obtain ⟨author, text, mts⟩ := m
  by_cases ha : author = some "user"
  · subst ha
    cases text with
    | none => simp [msgQuestion]
    | some t =>
      by_cases hq : isQuestionHeuristic (jsTrim t) = true
      · have hval : msgQuestion cid cts ⟨some "user", some t, mts⟩ =
            some ⟨jsTrim t, cid, mts.orElse fun _ => cts⟩ := by
          simp [msgQuestion, hq]
        rw [hval]
        constructor
        · intro h
          exact ⟨rfl, t, rfl, hq, (Option.some_inj.mp h).symm⟩
        · rintro ⟨-, t', ht', -, rfl⟩
          have ht2 : t' = t := (Option.some_inj.mp ht').symm
          subst ht2
          rfl
      · have hval : msgQuestion cid cts ⟨some "user", some t, mts⟩ = none := by
          simp [msgQuestion, hq]
        rw [hval]
        constructor
        · intro h
          exact absurd h (by simp)
        · rintro ⟨-, t', ht', hq', -⟩
          have ht2 : t' = t := (Option.some_inj.mp ht').symm
          subst ht2
          exact absurd hq' hq
  · simp [msgQuestion, ha]

/-- `bumpFreq` preserves the trailing-question-mark invariant. -/
theorem bumpFreq_inv (es : List FreqEntry) (n o : String)
    (hes : ∀ e ∈ es, endsWithQmark e.original = true) (ho : endsWithQmark o = true) :
    ∀ e ∈ bumpFreq es n o, endsWithQmark e.original = true := by
  intro e he
  unfold bumpFreq at he
  split_ifs at he with hc
  · rcases List.mem_map.mp he with ⟨e', he', rfl⟩
    by_cases h2 : e'.norm = n
    · simp only [if_pos h2]
      exact hes e' he'
    · simp only [if_neg h2]
      exact hes e' he'
  · rcases List.mem_append.mp he with hmem | hmem
    · exact hes e hmem
    · simp only [List.mem_singleton] at hmem
      subst hmem
      exact ho

/-- The analyser's inner message loop preserves the invariant. -/
theorem analyzerFreq_msgs_inv (msgs : List String) :
    ∀ acc, (∀ e ∈ acc, endsWithQmark e.original = true) →
      ∀ e ∈ msgs.foldl
          (fun acc2 msg =>
            if endsWithQmark (jsTrim msg) then bumpFreq acc2 (normalise msg) (jsTrim msg)
            else acc2)
          acc,
        endsWithQmark e.original = true := by
  induction msgs with
  | nil =>
    intro acc h e he
    exact h e he
  | cons msg rest ih =>
    intro acc h e he
    rw [List.foldl_cons] at he
    by_cases hq : endsWithQmark (jsTrim msg) = true
    · exact ih _ (bumpFreq_inv acc _ _ h hq) e (by simpa [hq] using he)
    · exact ih _ h e (by simpa [hq] using he)

/-- Every entry the analyser's frequency loop produces stems from a message
whose trimmed text ends in a question mark. -/
theorem analyzerFreq_inv :
    ∀ (logs : List LogConv) (acc : List FreqEntry),
      (∀ e ∈ acc, endsWithQmark e.original = true) →
      ∀ e ∈ logs.foldl
          (fun acc conv =>
            (logConvMessages conv).foldl
              (fun acc2 msg =>
                if endsWithQmark (jsTrim msg) then bumpFreq acc2 (normalise msg) (jsTrim msg)
                else acc2)
              acc)
          acc,
        endsWithQmark e.original = true := by
  intro logs
  induction logs with
  | nil =>
    intro acc h e he
    exact h e he
  | cons conv rest ih =>
    intro acc h e he
    rw [List.foldl_cons] at he
    exact ih _ (analyzerFreq_msgs_inv (logConvMessages conv) acc h) e he

/-- **C1 counterexample**: the claim fails on both extractors.
`extractQuestions` drops flat string-array conversations entirely, drops
messages not authored by `'user'`, and accepts an interrogative word
anywhere (not only opening); `ContentGapAnalyzer.analyse` counts only
trailing-`?` messages and misses interrogative-word questions. -/
theorem questionExtraction_counterexample :
    extractQuestions [Conv.strings ["How do I enable dark mode?"]] = [] ∧
    specIsQuestion "How do I enable dark mode?" = true ∧
    extractQuestions [Conv.obj (some "c1") none
      [⟨some "assistant", some "What now?", none⟩]] = [] ∧
    specIsQuestion "What now?" = true ∧
    extractQuestions [Conv.obj (some "c1") none
      [⟨some "user", some "Tell me what to do", none⟩]] =
      [⟨"Tell me what to do", "c1", none⟩] ∧
    specIsQuestion "Tell me what to do" = false ∧
    analyzerFreq [LogConv.flat ["What is SSO"]] = [] ∧
    specIsQuestion "What is SSO" = true := by
  decide

/-- **C1 amended**: `extractQuestions` returns exactly the trimmed texts of
`'user'`-authored string messages of `{id, messages}` conversations whose
trimmed text ends in `?` or contains an interrogative word as a whole word
anywhere (case-insensitively) — flat string arrays contribute nothing —
while the analyser's frequency loop counts exactly messages whose trimmed
text ends in `?`. -/
theorem extraction_behaviour :
    (∀ (convs : List Conv) (x : ExtractedQ),
      x ∈ extractQuestions convs ↔
        ∃ id ts msgs, Conv.obj id ts msgs ∈ convs ∧ ∃ m ∈ msgs,
          m.author = some "user" ∧ ∃ t, m.text = some t ∧
            isQuestionHeuristic (jsTrim t) = true ∧
            x = ⟨jsTrim t, id.getD "", m.timestamp.orElse fun _ => ts⟩) ∧
    (∀ (logs : List LogConv) (e : FreqEntry), e ∈ analyzerFreq logs →
      endsWithQmark e.original = true) := by
  constructor
  · intro convs x
    rw [extractQuestions_eq]
    simp only [List.mem_flatten, List.mem_map]
    constructor
    · rintro ⟨l, ⟨c, hc, rfl⟩, hx⟩
      cases c with
      | obj id ts msgs =>
        simp only [convQuestions, List.mem_filterMap] at hx
        obtain ⟨m, hm, hmq⟩ := hx
        obtain ⟨ha, t, ht, hq, rfl⟩ := (msgQuestion_eq_some _ _ _ _).mp hmq
        exact ⟨id, ts, msgs, hc, m, hm, ha, t, ht, hq, rfl⟩
      | strings msgs => simp [convQuestions] at hx
      | nullish => simp [convQuestions] at hx
    · rintro ⟨id, ts, msgs, hc, m, hm, ha, t, ht, hq, rfl⟩
      refine ⟨convQuestions (Conv.obj id ts msgs), ⟨Conv.obj id ts msgs, hc, rfl⟩, ?_⟩
      simp only [convQuestions, List.mem_filterMap]
      exact ⟨m, hm, (msgQuestion_eq_some _ _ _ _).mpr ⟨ha, t, ht, hq, rfl⟩⟩
  · intro logs e he
    exact analyzerFreq_inv logs [] (by simp) e he

/-- Witness for C1's amended theorem at a concrete conversation and a
concrete analyser entry. -/
theorem extraction_behaviour_witness :
    ((⟨"What now?", "c1", none⟩ : ExtractedQ) ∈
      extractQuestions [Conv.obj (some "c1") none
        [⟨some "user", some "What now?", none⟩]] ↔
      ∃ id ts msgs, Conv.obj id ts msgs ∈
          [Conv.obj (some "c1") none [⟨some "user", some "What now?", none⟩]] ∧
        ∃ m ∈ msgs, m.author = some "user" ∧ ∃ t, m.text = some t ∧
          isQuestionHeuristic (jsTrim t) = true ∧
          (⟨"What now?", "c1", none⟩ : ExtractedQ) =
            ⟨jsTrim t, id.getD "", m.timestamp.orElse fun _ => ts⟩) ∧
    endsWithQmark (FreqEntry.original ⟨"hi", "Hi?", 1⟩) = true :=
  ⟨extraction_behaviour.1 [Conv.obj (some "c1") none
      [⟨some "user", some "What now?", none⟩]] ⟨"What now?", "c1", none⟩,
   extraction_behaviour.2 [LogConv.flat ["Hi?"]] ⟨"hi", "Hi?", 1⟩ (by decide)⟩

/-! ## Claim C3: outline failure handling -/

/-- **C3 counterexample**: in `runContentGapAnalysis` a flagged gap whose LLM
response has no parseable JSON — or whose LLM call fails — aborts the whole
run with an error instead of substituting a placeholder: no suggestions are
returned at all. -/
theorem outline_failure_aborts_run :
    runContentGapAnalysis
        [Conv.obj (some "c1") none [⟨some "user", some "How do I enable dark mode?", none⟩]]
        (fun _ => [1]) (fun _ => none) (fun _ => LlmRaw.garbage "oops")
        FileContent.missing "2026-02-03T00:00:00.000Z" defaultCoverageThreshold
        defaultSimilarityThreshold defaultWeightFrequency defaultWeightRecurring =
      (Except.error "Unable to parse outline JSON: oops",
       [NetCall.embed "How do I enable dark mode?", NetCall.llm "How do I enable dark mode?"]) ∧
    runContentGapAnalysis
        [Conv.obj (some "c1") none [⟨some "user", some "How do I enable dark mode?", none⟩]]
        (fun _ => [1]) (fun _ => none) (fun _ => LlmRaw.failure "boom")
        FileContent.missing "2026-02-03T00:00:00.000Z" defaultCoverageThreshold
        defaultSimilarityThreshold defaultWeightFrequency defaultWeightRecurring =
      (Except.error "boom",
       [NetCall.embed "How do I enable dark mode?", NetCall.llm "How do I enable dark mode?"]) := by
  constructor <;> with_unfolding_all rfl

/-- **C3 amended**: `generateOutline` recovers a JSON object embedded in a
malformed response but throws (aborting `runContentGapAnalysis`, see the
counterexample) when the response has no parseable JSON or the call fails;
it is `ContentGapAnalyzer.analyse` that never aborts: a failed `callLLM`
degrades to the `topic: <truncated question>, outline: '- TBD'` placeholder,
an unparseable response keeps the raw text as the outline, and every flagged
question still yields a gap object. -/
theorem outline_fallback_behaviour :
    (∀ t o, generateOutline (LlmRaw.embedded t o) = Except.ok { topic := t, outline := o }) ∧
    (∀ raw, generateOutline (LlmRaw.garbage raw) =
      Except.error ("Unable to parse outline JSON: " ++ raw)) ∧
    (∀ msg, generateOutline (LlmRaw.failure msg) = Except.error msg) ∧
    (∀ original, analyzerOutlineRec original AnalyzerLlm.failure =
      { topic := some (strTake original 50), outline := some "- TBD" }) ∧
    (∀ original raw,
      analyzerOutlineRec original (AnalyzerLlm.response raw JsonParse.unparseable) =
        { topic := some (strTake original 50), outline := some raw }) ∧
    (∀ flagged llm, (analyzerProcessGaps flagged llm).length = flagged.length) :=
  ⟨fun _ _ => rfl, fun _ => rfl, fun _ => rfl, fun _ => rfl, fun _ _ => rfl,
   fun flagged llm => List.length_map flagged fun fc => analyzerGapObj fc.1 fc.2 (llm fc.1)⟩

/-! ## Claim C8: empty extraction short-circuits the run -/

/-- **C8**: when question extraction yields no questions,
`runContentGapAnalysis` returns empty suggestions immediately, leaves the
theme file untouched, and issues no embedding or LLM network call. -/
theorem run_no_questions_no_calls (convs : List Conv) (embed : String → Vec)
    (queryDoc : Vec → Option DocHit) (llm : String → LlmRaw)
    (file : FileContent ThemeMap) (now : String) (coverage simThreshold wF wR : ℚ)
    (h : extractQuestions convs = []) :
    runContentGapAnalysis convs embed queryDoc llm file now coverage simThreshold wF wR =
      (Except.ok ({ suggestions := [], recurringSummary := [] }, file), []) := by
  simp [runContentGapAnalysis, h]

/-- Witness for C8: a non-empty log whose only conversation is a flat string
array (which the extractor skips) produces no questions and no calls. -/
theorem run_no_questions_no_calls_witness :
    runContentGapAnalysis [Conv.strings ["How do I enable dark mode?"]] (fun _ => [])
        (fun _ => none) (fun _ => LlmRaw.empty) FileContent.missing "t"
        defaultCoverageThreshold defaultSimilarityThreshold defaultWeightFrequency
        defaultWeightRecurring =
      (Except.ok ({ suggestions := [], recurringSummary := [] }, FileContent.missing), []) :=
  run_no_questions_no_calls _ _ _ _ _ _ _ _ _ _ (by decide)

end ContentGap
